import Mathlib

/-!
Shallow embedding of the client side health statistics aggregation logic of
the StatisticsScreen component: per metric summary statistics with trend
classification, day grouped chart series, week over week comparison, and
calendar day marking.  Numeric values are modelled as exact rationals,
instants as integer milliseconds since the Unix epoch (UTC), and the raw
logged_at field by the outcome of parsing it.
-/

namespace HealthApp

/-- Outcome of parsing the logged_at field of a record: absent (a falsy
value), present but unparsable (parsing yields an invalid date), or a valid
instant in milliseconds since the epoch. -/
inductive LoggedAt where
  | missing : LoggedAt
  | invalid : LoggedAt
  | valid : Int → LoggedAt
deriving DecidableEq

/-- A health log record as consumed by the screen. -/
structure HealthRecord where
  metric_type : String
  value1 : ℚ
  logged_at : LoggedAt
deriving DecidableEq

/-- Trend classification of a metric. -/
inductive Trend where
  | up : Trend
  | down : Trend
  | stable : Trend
  | none : Trend
deriving DecidableEq

/-- Per metric summary entry of the stats state. -/
structure Summary where
  current : Option ℚ
  avg : Option ℚ
  min : Option ℚ
  max : Option ℚ
  trend : Trend
  change : ℚ
deriving DecidableEq

/-- The five metric stats entries held by the screen. -/
structure Stats where
  weight : Summary
  heartRate : Summary
  steps : Summary
  sleep : Summary
  water : Summary
deriving DecidableEq

/-- The fixed metric enumeration METRIC_TYPES. -/
inductive Metric where
  | weight : Metric
  | heartRate : Metric
  | steps : Metric
  | sleep : Metric
  | water : Metric
deriving DecidableEq

/-- The string key of a metric as it appears in the data. -/
def Metric.name : Metric → String
  | .weight => "weight"
  | .heartRate => "heartRate"
  | .steps => "steps"
  | .sleep => "sleep"
  | .water => "water"

/-- Field access of the stats state by metric. -/
def Stats.get (s : Stats) : Metric → Summary
  | .weight => s.weight
  | .heartRate => s.heartRate
  | .steps => s.steps
  | .sleep => s.sleep
  | .water => s.water

/-- The initial stats state: every entry has all numeric fields absent,
trend none and change 0. -/
def emptySummary : Summary :=
  { current := Option.none, avg := Option.none, min := Option.none
    max := Option.none, trend := Trend.none, change := 0 }

/-- The initial stats state of the component. -/
def initialStats : Stats :=
  { weight := emptySummary, heartRate := emptySummary, steps := emptySummary
    sleep := emptySummary, water := emptySummary }

/-- Rounding to one decimal place, the embedding of
parseFloat(x.toFixed(1)): ties are resolved upward, matching the larger
candidate rule of toFixed. -/
def round1 (q : ℚ) : ℚ := ((round (q * 10) : ℤ) : ℚ) / 10

/-- The per metric change threshold of the switch statement in
calculateStats; the default branch returns 0. -/
def thresholdOf (metric : String) : ℚ :=
  if metric = "weight" then 1/2
  else if metric = "heartRate" then 5
  else if metric = "steps" then 500
  else if metric = "sleep" then 1/2
  else if metric = "water" then 1
  else 0

/-- The records of the collection matching a metric key, in source order:
the embedding of data.filter(r => r.metric_type === metric). -/
def matching (data : List HealthRecord) (metric : String) : List HealthRecord :=
  data.filter (fun r => r.metric_type == metric)

/-- The summary computed by calculateStats for a metric with a nonempty
matching record list r0 :: rest. -/
def mkSummary (metric : String) (r0 : HealthRecord) (rest : List HealthRecord) : Summary :=
  let metricRecords := r0 :: rest
  let values := metricRecords.map HealthRecord.value1
  let lastRec := metricRecords.getLast (List.cons_ne_nil r0 rest)
  let current : Option ℚ := if lastRec.value1 = 0 then Option.none else some lastRec.value1
  let avg : ℚ := values.foldl (· + ·) 0 / (values.length : ℚ)
  let minv : ℚ := rest.foldl (fun a r => min a r.value1) r0.value1
  let maxv : ℚ := rest.foldl (fun a r => max a r.value1) r0.value1
  let tc : Trend × ℚ :=
    if 2 ≤ metricRecords.length then
      let change := lastRec.value1 - r0.value1
      let threshold := thresholdOf metric
      (if change > threshold then Trend.up
       else if change < -threshold then Trend.down
       else Trend.stable, change)
    else (Trend.none, 0)
  { current := current
    avg := some (round1 avg)
    min := some (round1 minv)
    max := some (round1 maxv)
    trend := tc.1
    change := round1 tc.2 }

/-- One iteration of the forEach in calculateStats: the entry of a metric is
replaced by freshly computed statistics when at least one record matches,
and otherwise the previous entry is kept (the newStats object starts as a
copy of the prior stats state). -/
def updateMetric (data : List HealthRecord) (metric : String) (old : Summary) : Summary :=
  match matching data metric with
  | [] => old
  | r0 :: rest => mkSummary metric r0 rest

/-- The embedding of calculateStats: each of the five entries is updated
from the collection, starting from the prior stats state. -/
def calculateStats (data : List HealthRecord) (stats : Stats) : Stats :=
  { weight := updateMetric data "weight" stats.weight
    heartRate := updateMetric data "heartRate" stats.heartRate
    steps := updateMetric data "steps" stats.steps
    sleep := updateMetric data "sleep" stats.sleep
    water := updateMetric data "water" stats.water }

/-- Trend classification as a function of a change value and a threshold,
following the specification text: change above the threshold is up, change
below the negated threshold is down, otherwise stable. -/
def classifySpec (change threshold : ℚ) : Trend :=
  if change > threshold then Trend.up
  else if change < -threshold then Trend.down
  else Trend.stable

/-- Milliseconds per calendar day. -/
def msPerDay : Int := 86400000

/-- The instant of a parsed timestamp; 0 on the unreachable branches. -/
def timeOf : LoggedAt → Int
  | .valid t => t
  | _ => 0

/-- The comparison parseISO(x) greater or equal a bound: false for a missing
timestamp (filtered out beforehand) and for an invalid date, whose NaN value
compares false. -/
def loggedGe (la : LoggedAt) (lo : Int) : Bool :=
  match la with
  | .valid t => lo ≤ t
  | _ => false

/-- The comparison of a parsed timestamp against an inclusive range: false
for missing and invalid timestamps. -/
def inRange (la : LoggedAt) (lo hi : Int) : Bool :=
  match la with
  | .valid t => lo ≤ t && t ≤ hi
  | _ => false

/-- The three chart time ranges. -/
inductive TimeRange where
  | week : TimeRange
  | month : TimeRange
  | year : TimeRange
deriving DecidableEq

/-- The window width in days of a time range. -/
def daysToShow : TimeRange → Int
  | .week => 7
  | .month => 30
  | .year => 365

/-- Gregorian calendar date of a day number counted from 1970-01-01,
via the standard civil from days algorithm, as year, month and day. -/
def civilFromDays (z0 : Int) : Int × Int × Int :=
  let z := z0 + 719468
  let era := z.fdiv 146097
  let doe := z - era * 146097
  let yoe := (doe - doe.fdiv 1460 + doe.fdiv 36524 - doe.fdiv 146096).fdiv 365
  let y := yoe + era * 400
  let doy := doe - (365 * yoe + yoe.fdiv 4 - yoe.fdiv 100)
  let mp := (5 * doy + 2).fdiv 153
  let d := doy - (153 * mp + 2).fdiv 5 + 1
  let m := mp + (if mp < 10 then 3 else -9)
  (if m ≤ 2 then y + 1 else y, m, d)

/-- Zero padded two digit rendering of a calendar component. -/
def pad2 (n : Int) : String :=
  if n < 10 then "0" ++ toString n else toString n

/-- The MM/dd day label of an instant, the embedding of
format with pattern MM/dd in UTC. -/
def mmddOfTime (t : Int) : String :=
  let c := civilFromDays (t.fdiv msPerDay)
  pad2 c.2.1 ++ "/" ++ pad2 c.2.2

/-- The yyyy-MM-dd day key of an instant, the embedding of
format with pattern yyyy-MM-dd in UTC. -/
def isoDayOfTime (t : Int) : String :=
  let c := civilFromDays (t.fdiv msPerDay)
  toString c.1 ++ "-" ++ pad2 c.2.1 ++ "-" ++ pad2 c.2.2

/-- The MM/dd day label of a record timestamp; only applied to valid
timestamps by the chart grouping. -/
def dayLabel (la : LoggedAt) : String :=
  match la with
  | .valid t => mmddOfTime t
  | _ => ""

/-- Chronological comparison of two records by parsed timestamp, the sort
comparator of getChartData. -/
def timeLe (a b : HealthRecord) : Prop :=
  timeOf a.logged_at ≤ timeOf b.logged_at

instance : DecidableRel timeLe := fun a b =>
  Int.decLe (timeOf a.logged_at) (timeOf b.logged_at)

/-- The windowed, metric filtered, chronologically sorted record list of
getChartData. -/
def selectedRecords (records : List HealthRecord) (selectedMetric : String)
    (tr : TimeRange) (now : Int) : List HealthRecord :=
  let startDate := now - daysToShow tr * msPerDay
  List.insertionSort timeLe
    (records.filter (fun r => loggedGe r.logged_at startDate && r.metric_type == selectedMetric))

/-- Accumulation of one record value into the grouped data object: the
first entry with the matching key is incremented, and a fresh key is
appended, matching the insertion order key semantics of a plain object. -/
def addToGroup (g : List (String × ℚ × Nat)) (key : String) (v : ℚ) :
    List (String × ℚ × Nat) :=
  match g with
  | [] => [(key, v, 1)]
  | e :: rest =>
      if e.1 = key then (e.1, e.2.1 + v, e.2.2 + 1) :: rest
      else e :: addToGroup rest key v

/-- The groupedData object of getChartData: per day label, the running sum
and count of values, built over the selected records in order. -/
def groupedData (sel : List HealthRecord) : List (String × ℚ × Nat) :=
  sel.foldl (fun g r => addToGroup g (dayLabel r.logged_at) r.value1) []

/-- Lookup of a day label in the grouped data; (0, 0) when absent. -/
def lookupG (g : List (String × ℚ × Nat)) (key : String) : ℚ × Nat :=
  match g with
  | [] => (0, 0)
  | e :: rest => if e.1 = key then (e.2.1, e.2.2) else lookupG rest key

/-- The lexicographically sorted day labels of the grouped data, the
embedding of Object.keys(groupedData).sort(). -/
def chartDates (sel : List HealthRecord) : List String :=
  List.insertionSort (· ≤ ·) ((groupedData sel).map Prod.fst)

/-- The per day mean values of the chart, in day label order. -/
def chartValues (sel : List HealthRecord) : List ℚ :=
  (chartDates sel).map
    (fun d => (lookupG (groupedData sel) d).1 / ((lookupG (groupedData sel) d).2 : ℚ))

/-- A chart series: day labels and one value per label. -/
structure ChartData where
  labels : List String
  data : List ℚ
deriving DecidableEq

/-- The embedding of getChartData: windowed metric records are grouped by
day label and averaged; an empty grouping yields the sentinel no data
series. -/
def getChartData (records : List HealthRecord) (selectedMetric : String)
    (tr : TimeRange) (now : Int) : ChartData :=
  if (chartDates (selectedRecords records selectedMetric tr now)).isEmpty then
    { labels := ["暂无数据"], data := [0] }
  else
    { labels := chartDates (selectedRecords records selectedMetric tr now)
      data := chartValues (selectedRecords records selectedMetric tr now) }

/-- First occurrence deduplication of a label list, the key order produced
by a plain object. -/
def dedupFirst (l : List String) : List String :=
  l.foldl (fun acc k => if k ∈ acc then acc else acc ++ [k]) []

/-- The chart labels as the specification describes them: the sorted
deduplicated day labels of the selected records. -/
def specLabels (sel : List HealthRecord) : List String :=
  List.insertionSort (· ≤ ·) (dedupFirst (sel.map (fun r => dayLabel r.logged_at)))

/-- The arithmetic mean of the values of a given day, as the specification
describes the chart point value. -/
def dayMeanSpec (sel : List HealthRecord) (d : String) : ℚ :=
  let vs := (sel.filter (fun r => dayLabel r.logged_at == d)).map HealthRecord.value1
  vs.sum / (vs.length : ℚ)

/-- Start instant of the Sunday based calendar week containing an instant,
the embedding of date-fns startOfWeek in UTC; day 0 of the epoch is a
Thursday, hence the offset 4. -/
def startOfWeekMs (t : Int) : Int :=
  let d := t.fdiv msPerDay
  (d - (d + 4) % 7) * msPerDay

/-- End instant of the Sunday based calendar week containing an instant,
the embedding of date-fns endOfWeek in UTC (last millisecond of the
Saturday). -/
def endOfWeekMs (t : Int) : Int :=
  startOfWeekMs t + 7 * msPerDay - 1

/-- The records of a metric whose timestamp parses and falls in an
inclusive instant range, in source order: the week filters of
getWeekComparison. -/
def weekRecords (records : List HealthRecord) (metric : String) (lo hi : Int) :
    List HealthRecord :=
  records.filter (fun r => inRange r.logged_at lo hi && r.metric_type == metric)

/-- Week over week comparison result. -/
structure WeekComparison where
  currentWeekAvg : ℚ
  lastWeekAvg : ℚ
  change : ℚ
deriving DecidableEq

/-- The mean of a value list with the empty week convention of the source:
an empty week contributes 0. -/
def weekMeanSpec (vs : List ℚ) : ℚ :=
  if vs = [] then 0 else vs.sum / (vs.length : ℚ)

/-- The embedding of getWeekComparison: means of the current and previous
Sunday based calendar weeks, an empty week counting as 0, and their
difference, each rounded to one decimal place; the difference is rounded
from the unrounded means. -/
def getWeekComparison (records : List HealthRecord) (selectedMetric : String)
    (today : Int) : WeekComparison :=
  let currentWeekRecords :=
    weekRecords records selectedMetric (startOfWeekMs today) (endOfWeekMs today)
  let lastWeekRecords :=
    weekRecords records selectedMetric (startOfWeekMs (today - 7 * msPerDay))
      (endOfWeekMs (today - 7 * msPerDay))
  let currentWeekAvg : ℚ :=
    if 0 < currentWeekRecords.length then
      currentWeekRecords.foldl (fun s r => s + r.value1) 0 / (currentWeekRecords.length : ℚ)
    else 0
  let lastWeekAvg : ℚ :=
    if 0 < lastWeekRecords.length then
      lastWeekRecords.foldl (fun s r => s + r.value1) 0 / (lastWeekRecords.length : ℚ)
    else 0
  { currentWeekAvg := round1 currentWeekAvg
    lastWeekAvg := round1 lastWeekAvg
    change := round1 (currentWeekAvg - lastWeekAvg) }

/-- The embedding of the day marking loop of getMarkedDates: records with a
missing timestamp are skipped, but a record whose timestamp is present yet
unparsable reaches format on an invalid date, which throws; the throw is
modelled by the none result.  The result collects the first occurrence of
each marked day key in order. -/
def markedDatesAux (acc : List String) : List HealthRecord → Option (List String)
  | [] => some acc
  | r :: rs =>
      match r.logged_at with
      | .missing => markedDatesAux acc rs
      | .invalid => Option.none
      | .valid t =>
          let k := isoDayOfTime t
          markedDatesAux (if k ∈ acc then acc else acc ++ [k]) rs

/-- The embedding of getMarkedDates restricted to its data dependent part,
the set of day keys carrying a marker; none models the RangeError thrown by
format on an invalid date. -/
def getMarkedDates (records : List HealthRecord) : Option (List String) :=
  markedDatesAux [] records

/-! ### Helper lemmas about the summary computation -/

lemma calculateStats_get (data : List HealthRecord) (p : Stats) (m : Metric) :
    (calculateStats data p).get m = updateMetric data m.name (p.get m) := by
  cases m <;> rfl

lemma initialStats_get (m : Metric) : initialStats.get m = emptySummary := by
  cases m <;> rfl

lemma round1_zero : round1 0 = 0 := by
  simp [round1]

lemma classifySpec_stable_iff (c t : ℚ) :
    classifySpec c t = Trend.stable ↔ -t ≤ c ∧ c ≤ t := by
  unfold classifySpec
  split_ifs with h1 h2
  · simp only [reduceCtorEq, false_iff]
    rintro ⟨-, hct⟩
    exact absurd h1 (not_lt.mpr hct)
  · simp only [reduceCtorEq, false_iff]
    rintro ⟨htc, -⟩
    exact absurd h2 (not_lt.mpr htc)
  · simp only [true_iff]
    exact ⟨not_lt.mp h2, not_lt.mp h1⟩

lemma mkSummary_trend (metric : String) (r0 r1 : HealthRecord)
    (rest : List HealthRecord) :
    (mkSummary metric r0 (r1 :: rest)).trend =
      classifySpec (((r0 :: r1 :: rest).getLast (List.cons_ne_nil r0 (r1 :: rest))).value1
        - r0.value1) (thresholdOf metric) := by
  simp only [mkSummary, classifySpec]
  rw [if_pos (by simp)]

lemma mkSummary_change (metric : String) (r0 r1 : HealthRecord)
    (rest : List HealthRecord) :
    (mkSummary metric r0 (r1 :: rest)).change =
      round1 (((r0 :: r1 :: rest).getLast (List.cons_ne_nil r0 (r1 :: rest))).value1
        - r0.value1) := by
  simp only [mkSummary]
  rw [if_pos (by simp)]

lemma mkSummary_single (metric : String) (r0 : HealthRecord) :
    mkSummary metric r0 [] =
      { current := if r0.value1 = 0 then Option.none else some r0.value1
        avg := some (round1 r0.value1)
        min := some (round1 r0.value1)
        max := some (round1 r0.value1)
        trend := Trend.none
        change := 0 } := by
  simp [mkSummary, round1_zero]

lemma mkSummary_current (metric : String) (r0 : HealthRecord)
    (rest : List HealthRecord) :
    (mkSummary metric r0 rest).current =
      if ((r0 :: rest).getLast (List.cons_ne_nil r0 rest)).value1 = 0 then Option.none
      else some ((r0 :: rest).getLast (List.cons_ne_nil r0 rest)).value1 := by
  simp only [mkSummary]

/-- The raw change of a nonempty matching list: value of the last element
minus value of the first, both in source order, read off through the
optional first and last elements. -/
def rawChange (ms : List HealthRecord) : ℚ :=
  ((ms.getLast?).map HealthRecord.value1).getD 0 -
    ((ms.head?).map HealthRecord.value1).getD 0

lemma rawChange_cons_cons (r0 r1 : HealthRecord) (rest : List HealthRecord) :
    rawChange (r0 :: r1 :: rest) =
      ((r0 :: r1 :: rest).getLast (List.cons_ne_nil r0 (r1 :: rest))).value1
        - r0.value1 := by
  rw [rawChange, List.getLast?_eq_getLast _ (List.cons_ne_nil r0 (r1 :: rest))]
  rfl


lemma updateMetric_nil (data : List HealthRecord) (metric : String) (old : Summary)
    (h : matching data metric = []) : updateMetric data metric old = old := by
  unfold updateMetric
  rw [h]

lemma updateMetric_cons (data : List HealthRecord) (metric : String) (old : Summary)
    (r0 : HealthRecord) (rest : List HealthRecord)
    (h : matching data metric = r0 :: rest) :
    updateMetric data metric old = mkSummary metric r0 rest := by
  unfold updateMetric
  rw [h]

/-! ### Claim theorems about the summary computation -/

/-- Concrete collection refuting claim C1: two weight records 70 and 70.51
in source order. -/
def c1Data : List HealthRecord :=
  [{ metric_type := "weight", value1 := 70, logged_at := LoggedAt.missing },
   { metric_type := "weight", value1 := 7051/100, logged_at := LoggedAt.missing }]

/-- C1 counterexample: the trend is not a function of the returned
(rounded) change.  With weight values 70 and 70.51 the returned change is
0.5, which the claimed rule classifies as stable, yet the code classifies
the unrounded change 0.51 as up. -/
theorem trend_not_function_of_returned_change :
    ((calculateStats c1Data initialStats).get Metric.weight).change = 1/2 ∧
    ((calculateStats c1Data initialStats).get Metric.weight).trend = Trend.up ∧
    classifySpec ((calculateStats c1Data initialStats).get Metric.weight).change
        (thresholdOf Metric.weight.name) ≠
      ((calculateStats c1Data initialStats).get Metric.weight).trend := by
  have hEq : matching c1Data Metric.weight.name =
      { metric_type := "weight", value1 := 70, logged_at := LoggedAt.missing } ::
      [{ metric_type := "weight", value1 := 7051/100, logged_at := LoggedAt.missing }] := rfl
  rw [calculateStats_get, updateMetric_cons _ _ _ _ _ hEq]
  refine ⟨?_, ?_, ?_⟩ <;>
    norm_num [mkSummary, classifySpec, thresholdOf, Metric.name, List.getLast,
      round1, round_eq]
  decide

/-- C1 amended: for at least two matching measurements, the trend is the
deterministic classification of the unrounded change (last value minus
first value in source order) against the fixed per metric threshold, and
the stable classification covers exactly the closed interval from the
negated threshold to the threshold. -/
theorem trend_classifies_unrounded_change (data : List HealthRecord) (p : Stats)
    (m : Metric) (h2 : 2 ≤ (matching data m.name).length) :
    ((calculateStats data p).get m).trend =
      classifySpec (rawChange (matching data m.name)) (thresholdOf m.name) ∧
    ∀ c t : ℚ, (classifySpec c t = Trend.stable ↔ -t ≤ c ∧ c ≤ t) := by
  refine ⟨?_, fun c t => classifySpec_stable_iff c t⟩
  rw [calculateStats_get]
  cases hEq : matching data m.name with
  | nil =>
    rw [hEq] at h2
    simp only [List.length_nil] at h2
    omega
  | cons r0 rest =>
    cases rest with
    | nil =>
      rw [hEq] at h2
      simp only [List.length_cons, List.length_nil] at h2
      omega
    | cons r1 rest2 =>
      rw [updateMetric_cons _ _ _ _ _ hEq, mkSummary_trend, rawChange_cons_cons]

/-- C1 witness: with steps values 3000 and 3100 (change 100, threshold
500) the amended rule yields stable, matching the computed trend. -/
theorem trend_classifies_unrounded_change_witness :
    ((calculateStats
        [{ metric_type := "steps", value1 := 3000, logged_at := LoggedAt.missing },
         { metric_type := "steps", value1 := 3100, logged_at := LoggedAt.missing }]
        initialStats).get Metric.steps).trend = Trend.stable := by
  have h := trend_classifies_unrounded_change
    [{ metric_type := "steps", value1 := 3000, logged_at := LoggedAt.missing },
     { metric_type := "steps", value1 := 3100, logged_at := LoggedAt.missing }]
    initialStats Metric.steps (by decide)
  have hm : matching
      [{ metric_type := "steps", value1 := 3000, logged_at := LoggedAt.missing },
       { metric_type := "steps", value1 := 3100, logged_at := LoggedAt.missing }]
      Metric.steps.name =
      { metric_type := "steps", value1 := 3000, logged_at := LoggedAt.missing } ::
      [{ metric_type := "steps", value1 := 3100, logged_at := LoggedAt.missing }] := rfl
  rw [h.1, hm, rawChange_cons_cons, show thresholdOf Metric.steps.name = 500 from rfl]
  norm_num [classifySpec, List.getLast]

/-- C2: for at least two matching measurements the returned change is the
value of the last matching element in source order minus the value of the
first, rounded to one decimal place; with fewer than two matching
measurements the change is 0 and the trend is none. -/
theorem change_last_minus_first_rounded (data : List HealthRecord) (m : Metric) :
    (2 ≤ (matching data m.name).length →
      ((calculateStats data initialStats).get m).change =
        round1 (rawChange (matching data m.name))) ∧
    ((matching data m.name).length < 2 →
      ((calculateStats data initialStats).get m).change = 0 ∧
      ((calculateStats data initialStats).get m).trend = Trend.none) := by
  rw [calculateStats_get, initialStats_get]
  cases hEq : matching data m.name with
  | nil =>
    rw [updateMetric_nil _ _ _ hEq]
    exact ⟨fun h2 => by simp only [List.length_nil] at h2; omega,
      fun _ => ⟨rfl, rfl⟩⟩
  | cons r0 rest =>
    rw [updateMetric_cons _ _ _ _ _ hEq]
    cases rest with
    | nil =>
      refine ⟨fun h2 => ?_, fun _ => ?_⟩
      · simp only [List.length_cons, List.length_nil] at h2
        omega
      · rw [mkSummary_single]
        exact ⟨rfl, rfl⟩
    | cons r1 rest2 =>
      refine ⟨fun _ => ?_, fun hlt => ?_⟩
      · rw [mkSummary_change, rawChange_cons_cons]
      · simp only [List.length_cons] at hlt
        omega

/-- C2 witness: weight values 70 and 71.2 give change 1.2; a single sleep
measurement gives change 0 and trend none. -/
theorem change_last_minus_first_rounded_witness :
    ((calculateStats
        [{ metric_type := "weight", value1 := 70, logged_at := LoggedAt.missing },
         { metric_type := "weight", value1 := 712/10, logged_at := LoggedAt.missing }]
        initialStats).get Metric.weight).change = 12/10 ∧
    ((calculateStats
        [{ metric_type := "sleep", value1 := 8, logged_at := LoggedAt.missing }]
        initialStats).get Metric.sleep).change = 0 := by
  constructor
  · have h := (change_last_minus_first_rounded
      [{ metric_type := "weight", value1 := 70, logged_at := LoggedAt.missing },
       { metric_type := "weight", value1 := 712/10, logged_at := LoggedAt.missing }]
      Metric.weight).1 (by decide)
    have hm : matching
        [{ metric_type := "weight", value1 := 70, logged_at := LoggedAt.missing },
         { metric_type := "weight", value1 := 712/10, logged_at := LoggedAt.missing }]
        Metric.weight.name =
        { metric_type := "weight", value1 := 70, logged_at := LoggedAt.missing } ::
        [{ metric_type := "weight", value1 := 712/10, logged_at := LoggedAt.missing }] := rfl
    rw [h, hm, rawChange_cons_cons]
    norm_num [List.getLast, round1, round_eq]
  · exact ((change_last_minus_first_rounded
      [{ metric_type := "sleep", value1 := 8, logged_at := LoggedAt.missing }]
      Metric.sleep).2 (by decide)).1

/-- C3: a metric with no matching measurement in the collection keeps the
initial summary when summarize runs from the documented initial stats
state: current, average, minimum and maximum absent, trend none and
change 0. -/
theorem empty_metric_summary_absent (data : List HealthRecord) (m : Metric)
    (h : matching data m.name = []) :
    ((calculateStats data initialStats).get m).current = Option.none ∧
    ((calculateStats data initialStats).get m).avg = Option.none ∧
    ((calculateStats data initialStats).get m).min = Option.none ∧
    ((calculateStats data initialStats).get m).max = Option.none ∧
    ((calculateStats data initialStats).get m).trend = Trend.none ∧
    ((calculateStats data initialStats).get m).change = 0 := by
  rw [calculateStats_get, initialStats_get, updateMetric_nil _ _ _ h]
  exact ⟨rfl, rfl, rfl, rfl, rfl, rfl⟩

/-- C3 witness: a collection holding only a weight record has no heartRate
match, so the heartRate summary is fully absent. -/
theorem empty_metric_summary_absent_witness :
    ((calculateStats
        [{ metric_type := "weight", value1 := 70, logged_at := LoggedAt.missing }]
        initialStats).get Metric.heartRate).current = Option.none ∧
    ((calculateStats
        [{ metric_type := "weight", value1 := 70, logged_at := LoggedAt.missing }]
        initialStats).get Metric.heartRate).trend = Trend.none := by
  have h := empty_metric_summary_absent
    [{ metric_type := "weight", value1 := 70, logged_at := LoggedAt.missing }]
    Metric.heartRate rfl
  exact ⟨h.1, h.2.2.2.2.1⟩

/-- Concrete collection refuting claim C4: a single weight record whose
value 1.25 has more than one decimal place. -/
def c4Data : List HealthRecord :=
  [{ metric_type := "weight", value1 := 5/4, logged_at := LoggedAt.missing }]

/-- C4 counterexample: with a single matching measurement of value 1.25 the
current value is the raw 1.25 while the average is rounded to 1.3, so
average, minimum, maximum and current are not all equal to the value. -/
theorem single_measurement_avg_ne_current :
    ((calculateStats c4Data initialStats).get Metric.weight).current = some (5/4) ∧
    ((calculateStats c4Data initialStats).get Metric.weight).avg = some (13/10) ∧
    ((calculateStats c4Data initialStats).get Metric.weight).avg ≠
      ((calculateStats c4Data initialStats).get Metric.weight).current := by
  have hEq : matching c4Data Metric.weight.name =
      { metric_type := "weight", value1 := 5/4, logged_at := LoggedAt.missing } :: [] := rfl
  rw [calculateStats_get, updateMetric_cons _ _ _ _ _ hEq, mkSummary_single]
  refine ⟨?_, ?_, ?_⟩ <;> norm_num [round1, round_eq]

/-- C4 amended: with exactly one matching measurement of value v, the
average, minimum and maximum equal v rounded to one decimal place, the
current value is v unless v is 0 (in which case it is absent), the trend
is none and the change is 0. -/
theorem single_measurement_summary (data : List HealthRecord) (p : Stats)
    (m : Metric) (r : HealthRecord) (h : matching data m.name = [r]) :
    ((calculateStats data p).get m).avg = some (round1 r.value1) ∧
    ((calculateStats data p).get m).min = some (round1 r.value1) ∧
    ((calculateStats data p).get m).max = some (round1 r.value1) ∧
    ((calculateStats data p).get m).current =
      (if r.value1 = 0 then Option.none else some r.value1) ∧
    ((calculateStats data p).get m).trend = Trend.none ∧
    ((calculateStats data p).get m).change = 0 := by
  rw [calculateStats_get, updateMetric_cons _ _ _ _ _ h, mkSummary_single]
  exact ⟨rfl, rfl, rfl, rfl, rfl, rfl⟩

/-- C4 witness: a single sleep measurement of value 7.5 yields average and
current 7.5. -/
theorem single_measurement_summary_witness :
    ((calculateStats
        [{ metric_type := "sleep", value1 := 15/2, logged_at := LoggedAt.missing }]
        initialStats).get Metric.sleep).avg = some (15/2) ∧
    ((calculateStats
        [{ metric_type := "sleep", value1 := 15/2, logged_at := LoggedAt.missing }]
        initialStats).get Metric.sleep).current = some (15/2) := by
  have h := single_measurement_summary
    [{ metric_type := "sleep", value1 := 15/2, logged_at := LoggedAt.missing }]
    initialStats Metric.sleep
    { metric_type := "sleep", value1 := 15/2, logged_at := LoggedAt.missing }
    rfl
  refine ⟨h.1.trans ?_, (h.2.2.2.1.trans ?_)⟩
  · norm_num [round1, round_eq]
  · norm_num

/-- A prior stats state differing from the initial one at the weight
entry, as left behind by an earlier aggregation run. -/
def alteredStats : Stats :=
  { initialStats with
    weight := { current := some 70, avg := some 70, min := some 70
                max := some 70, trend := Trend.stable, change := 0 } }

/-- C9 counterexample: two runs over the same (empty) collection but
different prior summary state produce different weight summaries, so the
produced summary is not a function of the supplied collection alone. -/
theorem summary_depends_on_prior_state :
    (calculateStats [] initialStats).get Metric.weight ≠
      (calculateStats [] alteredStats).get Metric.weight := by
  rw [calculateStats_get, calculateStats_get,
    updateMetric_nil [] Metric.weight.name (initialStats.get Metric.weight) rfl,
    updateMetric_nil [] Metric.weight.name (alteredStats.get Metric.weight) rfl,
    initialStats_get]
  intro hcontra
  have hcur : (emptySummary).current = ((alteredStats.get Metric.weight)).current := by
    rw [hcontra]
  simp [emptySummary, alteredStats, Stats.get] at hcur

/-- C9 amended: the summary of a metric with at least one matching
measurement is a function of the collection alone, but for a metric with no
matching measurement the prior summary entry is returned unchanged, so runs
from different prior states can differ on such metrics. -/
theorem summary_function_of_collection_when_matched (data : List HealthRecord)
    (p q : Stats) (m : Metric) :
    (matching data m.name ≠ [] →
      (calculateStats data p).get m = (calculateStats data q).get m) ∧
    (matching data m.name = [] →
      (calculateStats data p).get m = p.get m) := by
  constructor
  · intro hne
    cases hEq : matching data m.name with
    | nil => exact absurd hEq hne
    | cons r0 rest =>
      rw [calculateStats_get, calculateStats_get, updateMetric_cons _ _ _ _ _ hEq,
        updateMetric_cons _ _ _ _ _ hEq]
  · intro hnil
    rw [calculateStats_get, updateMetric_nil _ _ _ hnil]

/-- C9 witness: with a matching weight record the result is independent of
the prior state, and with an empty collection the sleep entry is the prior
sleep entry. -/
theorem summary_function_of_collection_when_matched_witness :
    (calculateStats
        [{ metric_type := "weight", value1 := 70, logged_at := LoggedAt.missing }]
        initialStats).get Metric.weight =
      (calculateStats
        [{ metric_type := "weight", value1 := 70, logged_at := LoggedAt.missing }]
        alteredStats).get Metric.weight ∧
    (calculateStats [] initialStats).get Metric.sleep = initialStats.get Metric.sleep := by
  constructor
  · exact (summary_function_of_collection_when_matched
      [{ metric_type := "weight", value1 := 70, logged_at := LoggedAt.missing }]
      initialStats alteredStats Metric.weight).1 (by simp [matching, Metric.name])
  · exact (summary_function_of_collection_when_matched []
      initialStats alteredStats Metric.sleep).2 rfl

/-- C10: whenever the last matching measurement in source order has value
exactly 0, the current field comes out absent, because the JavaScript
fallback treats the value 0 as falsy. -/
theorem current_absent_when_last_value_zero (data : List HealthRecord) (p : Stats)
    (m : Metric) (r0 : HealthRecord) (rest : List HealthRecord)
    (h : matching data m.name = r0 :: rest)
    (h0 : ((r0 :: rest).getLast (List.cons_ne_nil r0 rest)).value1 = 0) :
    ((calculateStats data p).get m).current = Option.none := by
  rw [calculateStats_get, updateMetric_cons _ _ _ _ _ h, mkSummary_current, if_pos h0]

/-- C10 witness: a weight record of value 0 yields an absent current value
even though a matching measurement exists. -/
theorem current_absent_when_last_value_zero_witness :
    ((calculateStats
        [{ metric_type := "weight", value1 := 0, logged_at := LoggedAt.missing }]
        initialStats).get Metric.weight).current = Option.none := by
  exact current_absent_when_last_value_zero
    [{ metric_type := "weight", value1 := 0, logged_at := LoggedAt.missing }]
    initialStats Metric.weight
    { metric_type := "weight", value1 := 0, logged_at := LoggedAt.missing }
    [] rfl rfl

/-! ### Helper lemmas about the chart grouping -/

lemma lookupG_addToGroup (g : List (String × ℚ × Nat)) (k : String) (v : ℚ)
    (d : String) :
    lookupG (addToGroup g k v) d =
      if k = d then ((lookupG g d).1 + v, (lookupG g d).2 + 1)
      else lookupG g d := by
  induction g with
  | nil =>
    by_cases hkd : k = d <;> simp [addToGroup, lookupG, hkd]
  | cons e rest ih =>
    by_cases hek : e.1 = k
    · by_cases hkd : k = d
      · simp [addToGroup, lookupG, hek, hkd]
      · have hed : ¬e.1 = d := fun h => hkd (hek.symm.trans h)
        simp [addToGroup, lookupG, hek, hkd, hed]
    · by_cases hed : e.1 = d
      · have hkd : ¬k = d := fun h => hek (hed.trans h.symm)
        have hdk : ¬d = k := fun h => hek (hed.trans h)
        simp [addToGroup, lookupG, hek, hed, hkd, hdk]
      · simp [addToGroup, lookupG, hek, hed, ih]

lemma lookupG_foldl (l : List HealthRecord) (g : List (String × ℚ × Nat))
    (d : String) :
    lookupG (l.foldl (fun acc r => addToGroup acc (dayLabel r.logged_at) r.value1) g) d =
      ((lookupG g d).1 +
         ((l.filter (fun r => dayLabel r.logged_at == d)).map HealthRecord.value1).sum,
       (lookupG g d).2 +
         (l.filter (fun r => dayLabel r.logged_at == d)).length) := by
  induction l generalizing g with
  | nil => simp
  | cons r l ih =>
    rw [List.foldl_cons, ih, lookupG_addToGroup]
    by_cases h : dayLabel r.logged_at = d
    · rw [if_pos h, List.filter_cons_of_pos (by simpa using h)]
      simp only [List.map_cons, List.sum_cons, List.length_cons]
      refine Prod.ext ?_ ?_
      · simp only []
        ring
      · simp only []
        omega
    · rw [if_neg h, List.filter_cons_of_neg (by simpa using h)]

lemma lookupG_groupedData (sel : List HealthRecord) (d : String) :
    lookupG (groupedData sel) d =
      (((sel.filter (fun r => dayLabel r.logged_at == d)).map HealthRecord.value1).sum,
       (sel.filter (fun r => dayLabel r.logged_at == d)).length) := by
  rw [groupedData, lookupG_foldl]
  simp [lookupG]

lemma keys_addToGroup (g : List (String × ℚ × Nat)) (k : String) (v : ℚ) :
    (addToGroup g k v).map Prod.fst =
      if k ∈ g.map Prod.fst then g.map Prod.fst else g.map Prod.fst ++ [k] := by
  induction g with
  | nil => simp [addToGroup]
  | cons e rest ih =>
    by_cases hek : e.1 = k
    · simp [addToGroup, hek]
    · have hne : k ≠ e.1 := fun h => hek h.symm
      by_cases hk : k ∈ rest.map Prod.fst
      · simp [addToGroup, hek, ih, hk, hne]
      · simp [addToGroup, hek, ih, hk, hne]

lemma keys_foldl (l : List HealthRecord) (g : List (String × ℚ × Nat)) :
    (l.foldl (fun acc r => addToGroup acc (dayLabel r.logged_at) r.value1) g).map Prod.fst =
      l.foldl (fun acc r =>
        if dayLabel r.logged_at ∈ acc then acc else acc ++ [dayLabel r.logged_at])
        (g.map Prod.fst) := by
  induction l generalizing g with
  | nil => simp
  | cons r l ih =>
    rw [List.foldl_cons, List.foldl_cons, ih, keys_addToGroup]

lemma keys_groupedData (sel : List HealthRecord) :
    (groupedData sel).map Prod.fst =
      dedupFirst (sel.map (fun r => dayLabel r.logged_at)) := by
  rw [groupedData, keys_foldl, dedupFirst, List.foldl_map]
  rfl

lemma mem_dedupAux (l : List String) (acc : List String) (d : String) :
    (d ∈ l.foldl (fun acc k => if k ∈ acc then acc else acc ++ [k]) acc) ↔
      d ∈ acc ∨ d ∈ l := by
  induction l generalizing acc with
  | nil => simp
  | cons k l ih =>
    rw [List.foldl_cons, ih]
    by_cases hk : k ∈ acc
    · rw [if_pos hk]
      constructor
      · rintro (h | h)
        · exact Or.inl h
        · exact Or.inr (List.mem_cons_of_mem k h)
      · rintro (h | h)
        · exact Or.inl h
        · rcases List.mem_cons.mp h with h | h
          · exact Or.inl (h ▸ hk)
          · exact Or.inr h
    · rw [if_neg hk]
      simp only [List.mem_append, List.mem_singleton, List.mem_cons]
      tauto

lemma nodup_dedupAux (l : List String) (acc : List String) (hacc : acc.Nodup) :
    (l.foldl (fun acc k => if k ∈ acc then acc else acc ++ [k]) acc).Nodup := by
  induction l generalizing acc with
  | nil => simpa
  | cons k l ih =>
    rw [List.foldl_cons]
    by_cases hk : k ∈ acc
    · rw [if_pos hk]
      exact ih acc hacc
    · rw [if_neg hk]
      refine ih _ ?_
      rw [List.nodup_append]
      refine ⟨hacc, List.nodup_singleton k, ?_⟩
      intro a ha hmem
      rw [List.mem_singleton] at hmem
      exact hk (hmem ▸ ha)

lemma nodup_dedupFirst (l : List String) : (dedupFirst l).Nodup :=
  nodup_dedupAux l [] List.nodup_nil

lemma mem_dedupFirst (l : List String) (d : String) : d ∈ dedupFirst l ↔ d ∈ l := by
  rw [dedupFirst, mem_dedupAux]
  simp

lemma chartDates_eq_specLabels (sel : List HealthRecord) :
    chartDates sel = specLabels sel := by
  rw [chartDates, specLabels, keys_groupedData]

lemma specLabels_nodup (sel : List HealthRecord) : (specLabels sel).Nodup :=
  ((List.perm_insertionSort _ _).nodup_iff).mpr (nodup_dedupFirst _)

lemma specLabels_sorted (sel : List HealthRecord) :
    (specLabels sel).Sorted (· ≤ ·) :=
  List.sorted_insertionSort _ _

lemma mem_specLabels (sel : List HealthRecord) (d : String) :
    d ∈ specLabels sel ↔ ∃ r ∈ sel, dayLabel r.logged_at = d := by
  rw [specLabels, List.mem_insertionSort, mem_dedupFirst]
  simp

lemma chartValues_eq (sel : List HealthRecord) :
    chartValues sel = (chartDates sel).map (dayMeanSpec sel) := by
  unfold chartValues
  refine List.map_congr_left (fun d _ => ?_)
  rw [lookupG_groupedData]
  simp [dayMeanSpec, List.length_map]

lemma chartDates_ne_nil (sel : List HealthRecord) (h : sel ≠ []) :
    chartDates sel ≠ [] := by
  cases sel with
  | nil => exact absurd rfl h
  | cons r rest =>
    intro hnil
    have hmem : dayLabel r.logged_at ∈ chartDates (r :: rest) := by
      rw [chartDates_eq_specLabels, mem_specLabels]
      exact ⟨r, List.mem_cons_self r rest, rfl⟩
    rw [hnil] at hmem
    exact absurd hmem (List.not_mem_nil _)

/-- C5: for a nonempty selection, the chart series has exactly the sorted
deduplicated day labels of the windowed, time sorted matching measurements,
one point per day label whose value is the arithmetic mean of that day,
the labels are pairwise distinct and in lexicographic order, and a label
occurs exactly when some selected measurement falls on that day. -/
theorem chart_groups_by_day_label (records : List HealthRecord) (metric : String)
    (tr : TimeRange) (now : Int)
    (h : selectedRecords records metric tr now ≠ []) :
    getChartData records metric tr now =
      { labels := specLabels (selectedRecords records metric tr now)
        data := (specLabels (selectedRecords records metric tr now)).map
          (dayMeanSpec (selectedRecords records metric tr now)) } ∧
    (specLabels (selectedRecords records metric tr now)).Nodup ∧
    (specLabels (selectedRecords records metric tr now)).Sorted (· ≤ ·) ∧
    ∀ d, d ∈ specLabels (selectedRecords records metric tr now) ↔
      ∃ r ∈ selectedRecords records metric tr now, dayLabel r.logged_at = d := by
  refine ⟨?_, specLabels_nodup _, specLabels_sorted _, fun d => mem_specLabels _ d⟩
  have hne := chartDates_ne_nil _ h
  rw [getChartData, if_neg (by simpa [List.isEmpty_iff] using hne),
    chartValues_eq, chartDates_eq_specLabels]

/-- Concrete collection for the C5 scenario: two weight measurements on the
same calendar day with values 10 and 20. -/
def c5Data : List HealthRecord :=
  [{ metric_type := "weight", value1 := 10, logged_at := LoggedAt.valid 0 },
   { metric_type := "weight", value1 := 20, logged_at := LoggedAt.valid 3600000 }]

/-- C5 witness: the two same day measurements of values 10 and 20 produce
exactly one chart point for that day, with mean 15. -/
theorem chart_groups_by_day_label_witness :
    getChartData c5Data "weight" TimeRange.week (2 * msPerDay) =
      { labels := ["01/01"], data := [15] } := by
  have hsel : selectedRecords c5Data "weight" TimeRange.week (2 * msPerDay) = c5Data := rfl
  have h := (chart_groups_by_day_label c5Data "weight" TimeRange.week (2 * msPerDay)
    (by rw [hsel]; exact fun hc => List.noConfusion hc)).1
  rw [h, hsel, show specLabels c5Data = ["01/01"] from rfl]
  have hfil : c5Data.filter (fun r => dayLabel r.logged_at == "01/01") = c5Data := rfl
  simp only [List.map_cons, List.map_nil, dayMeanSpec, hfil]
  norm_num [c5Data]

/-- C6: a record is in the selected list of the week chart exactly when it
occurs in the collection, matches the metric, and carries a parsed
timestamp at or after the reference instant minus 7 days; a record whose
timestamp is strictly earlier is excluded. -/
theorem week_window_inclusive_lower_bound (records : List HealthRecord)
    (metric : String) (now : Int) (r : HealthRecord) :
    (r ∈ selectedRecords records metric TimeRange.week now ↔
      r ∈ records ∧ r.metric_type = metric ∧
        ∃ t, r.logged_at = LoggedAt.valid t ∧ now - 7 * msPerDay ≤ t) ∧
    ∀ t, r.logged_at = LoggedAt.valid t → t < now - 7 * msPerDay →
      r ∉ selectedRecords records metric TimeRange.week now := by
  have hiff : r ∈ selectedRecords records metric TimeRange.week now ↔
      r ∈ records ∧ r.metric_type = metric ∧
        ∃ t, r.logged_at = LoggedAt.valid t ∧ now - 7 * msPerDay ≤ t := by
    rw [selectedRecords, List.mem_insertionSort, List.mem_filter]
    simp only [Bool.and_eq_true, beq_iff_eq, daysToShow]
    constructor
    · rintro ⟨hmem, hge, hmt⟩
      refine ⟨hmem, hmt, ?_⟩
      cases hla : r.logged_at with
      | valid t =>
        rw [hla] at hge
        exact ⟨t, rfl, by simpa [loggedGe] using hge⟩
      | missing => rw [hla] at hge; simp [loggedGe] at hge
      | invalid => rw [hla] at hge; simp [loggedGe] at hge
    · rintro ⟨hmem, hmt, t, hla, hge⟩
      refine ⟨hmem, ?_, hmt⟩
      rw [hla]
      simpa [loggedGe] using hge
  refine ⟨hiff, fun t hla hlt hmem => ?_⟩
  rcases hiff.mp hmem with ⟨-, -, t2, hla2, hge⟩
  rw [hla] at hla2
  cases hla2
  omega

/-- C6 witness: with the reference instant at day 10, a measurement logged
at instant 0 (earlier than day 3) is excluded from the weekly series. -/
theorem week_window_inclusive_lower_bound_witness :
    { metric_type := "weight", value1 := 70, logged_at := LoggedAt.valid 0 } ∉
      selectedRecords
        [{ metric_type := "weight", value1 := 70, logged_at := LoggedAt.valid 0 }]
        "weight" TimeRange.week (10 * msPerDay) :=
  (week_window_inclusive_lower_bound _ "weight" (10 * msPerDay) _).2 0 rfl (by decide)

/-! ### Week comparison and calendar marking -/

lemma foldl_add_eq_sum (l : List HealthRecord) (a : ℚ) :
    l.foldl (fun s r => s + r.value1) a = a + (l.map HealthRecord.value1).sum := by
  induction l generalizing a with
  | nil => simp
  | cons r l ih => simp [List.foldl_cons, ih, add_assoc]

lemma avg_eq_weekMeanSpec (l : List HealthRecord) :
    (if 0 < l.length then
        l.foldl (fun s r => s + r.value1) 0 / (l.length : ℚ)
     else 0) = weekMeanSpec (l.map HealthRecord.value1) := by
  cases l with
  | nil => simp [weekMeanSpec]
  | cons r rest =>
    simp [weekMeanSpec, foldl_add_eq_sum, List.length_map]

/-- C7: the week over week change is the current week mean minus the
previous week mean rounded to one decimal place, where a week with no
matching measurement contributes mean 0; in particular two empty weeks give
change 0. -/
theorem week_comparison_change (records : List HealthRecord) (metric : String)
    (today : Int) :
    ((getWeekComparison records metric today).change =
      round1
        (weekMeanSpec ((weekRecords records metric (startOfWeekMs today)
            (endOfWeekMs today)).map HealthRecord.value1) -
         weekMeanSpec ((weekRecords records metric
            (startOfWeekMs (today - 7 * msPerDay))
            (endOfWeekMs (today - 7 * msPerDay))).map HealthRecord.value1))) ∧
    (weekRecords records metric (startOfWeekMs today) (endOfWeekMs today) = [] →
      weekRecords records metric (startOfWeekMs (today - 7 * msPerDay))
        (endOfWeekMs (today - 7 * msPerDay)) = [] →
      (getWeekComparison records metric today).change = 0) := by
  have hch : (getWeekComparison records metric today).change =
      round1
        (weekMeanSpec ((weekRecords records metric (startOfWeekMs today)
            (endOfWeekMs today)).map HealthRecord.value1) -
         weekMeanSpec ((weekRecords records metric
            (startOfWeekMs (today - 7 * msPerDay))
            (endOfWeekMs (today - 7 * msPerDay))).map HealthRecord.value1)) := by
    rw [getWeekComparison]
    simp only [avg_eq_weekMeanSpec]
  refine ⟨hch, fun h1 h2 => ?_⟩
  rw [hch, h1, h2]
  simp [weekMeanSpec, round1_zero]

/-- C7 witness: with no measurements at all, both weeks are empty and the
change is 0. -/
theorem week_comparison_change_witness :
    (getWeekComparison [] "weight" 0).change = 0 :=
  (week_comparison_change [] "weight" 0).2 rfl rfl

/-- A record whose timestamp is present but unparsable. -/
def c8Bad : HealthRecord :=
  { metric_type := "weight", value1 := 70, logged_at := LoggedAt.invalid }

/-- C8: the calendar marking loop of getMarkedDates throws (modelled by the
none result) on a present but unparsable timestamp instead of skipping it,
while a missing timestamp is skipped, the chart and week filters exclude
the record and return normally, and summarize still includes it in the
non date aggregates. -/
theorem marked_dates_throw_on_unparsable :
    getMarkedDates [c8Bad] = Option.none ∧
    getMarkedDates
      [{ metric_type := "weight", value1 := 70, logged_at := LoggedAt.missing }] =
      some [] ∧
    selectedRecords [c8Bad] "weight" TimeRange.week 0 = [] ∧
    weekRecords [c8Bad] "weight" (startOfWeekMs 0) (endOfWeekMs 0) = [] ∧
    ((calculateStats [c8Bad] initialStats).get Metric.weight).current = some 70 := by
  refine ⟨rfl, rfl, rfl, rfl, ?_⟩
  have hEq : matching [c8Bad] Metric.weight.name = c8Bad :: [] := rfl
  rw [calculateStats_get, updateMetric_cons _ _ _ _ _ hEq, mkSummary_current]
  norm_num [List.getLast, c8Bad]

end HealthApp
